import Mathlib

/-!
Shallow embedding of the OmniAI RAG chatbot backend
(`backend/memory.py`, `backend/database.py` / `backend/knowledge_base.py`,
`backend/llm_engine.py`, `backend/rag_engine.py`, `backend/app.py`)
together with proofs about the embedded operations.

External collaborators (filesystem, pickle, the SentenceTransformer encoder,
the sklearn cosine_similarity function, the HTTP LLM service, wall-clock time, uuid) are
modelled as explicit parameters/oracles; machine floats are modelled as `ℚ`;
Python dicts keyed by strings are modelled as association lists.
-/

/-! ### Generic list helpers -/

/-- The last `n` elements of a list (Python `l[-n:]` for `n ≥ 1`, and the
content of a `collections.deque(maxlen := n)` after appends). -/
def takeLast {α : Type} (n : ℕ) (l : List α) : List α :=
  l.drop (l.length - n)

theorem takeLast_length_le {α : Type} (n : ℕ) (l : List α) :
    (takeLast n l).length ≤ n := by
  simp [takeLast]
  omega

theorem takeLast_of_length_le {α : Type} (n : ℕ) (l : List α)
    (h : l.length ≤ n) : takeLast n l = l := by
  simp [takeLast, Nat.sub_eq_zero_of_le h]

theorem takeLast_append_takeLast {α : Type} (n : ℕ) (u w : List α) :
    takeLast n (takeLast n u ++ w) = takeLast n (u ++ w) := by
  rcases Nat.le_total u.length n with h | h
  · rw [takeLast_of_length_le n u h]
  · have hk : u.length - n ≤ u.length := Nat.sub_le _ _
    unfold takeLast
    rw [← List.drop_append_of_le_length hk, List.drop_drop]
    congr 1
    simp only [List.length_drop, List.length_append]
    omega

/-! ### Conversation Memory (`backend/memory.py`) -/

/-- A message stored in a session history (`backend/memory.py`,
`ConversationMemory.add_message`): role, content, ISO timestamp, metadata.
The timestamp produced by `datetime.now().isoformat()` is supplied by the
caller of the embedded operation as an opaque string. -/
structure Message where
  role : String
  content : String
  timestamp : String
  metadata : List (String × String)
  deriving DecidableEq, Repr

/-- An analytics record (`ConversationMemory.log_message`). -/
structure LogEntry where
  session_id : String
  role : String
  content : String
  timestamp : String
  context_used : ℕ
  processing_time : Option ℚ
  metadata : List (String × String)
  deriving DecidableEq, Repr

/-- State of `ConversationMemory`: sliding-window capacity, the
`session_id -> deque` dict (as an association list), and the unbounded
analytics log. -/
structure ConversationMemory where
  max_messages : ℕ
  conversations : List (String × List Message)
  analytics_log : List LogEntry
  deriving DecidableEq, Repr

/-- Embeds `ConversationMemory.__init__(max_messages)`. -/
def emptyMemory (max_messages : ℕ) : ConversationMemory :=
  ⟨max_messages, [], []⟩

/-- Write a key in a string-keyed dict modelled as an association list:
replace the first binding of the key, or append a new binding. -/
def setSession {α : Type} : List (String × α) → String → α → List (String × α)
  | [], s, v => [(s, v)]
  | (k, w) :: rest, s, v =>
      if k = s then (s, v) :: rest else (k, w) :: setSession rest s v

/-- Appending to a `collections.deque(maxlen)` keeps only the last
`maxlen` elements. -/
def dequeAppend (maxlen : ℕ) (h : List Message) (m : Message) : List Message :=
  takeLast maxlen (h ++ [m])

/-- Embeds `ConversationMemory.log_message`: append one analytics record
(defaults in the source: `context_used=0`, `processing_time=None`,
`metadata=None` i.e. the empty mapping). -/
def ConversationMemory.log_message (mem : ConversationMemory)
    (session_id role content now : String) (context_used : ℕ)
    (processing_time : Option ℚ) (metadata : List (String × String)) :
    ConversationMemory :=
  { mem with analytics_log := mem.analytics_log ++
      [⟨session_id, role, content, now, context_used, processing_time, metadata⟩] }

/-- Embeds `ConversationMemory.add_message`: create the session deque if absent,
append the message (FIFO eviction beyond `max_messages`), then log to
analytics via `log_message` with its defaults (`context_used=0`,
`processing_time=None`). -/
def ConversationMemory.add_message (mem : ConversationMemory)
    (session_id role content now : String)
    (metadata : List (String × String)) : ConversationMemory :=
  let hist := (List.lookup session_id mem.conversations).getD []
  let msg : Message := ⟨role, content, now, metadata⟩
  let conv' := setSession mem.conversations session_id (dequeAppend mem.max_messages hist msg)
  let mem' := { mem with conversations := conv' }
  mem'.log_message session_id role content now 0 none metadata

/-- Embeds `ConversationMemory.get_conversation_history`: the messages of the session,
empty if the session is unknown. -/
def ConversationMemory.get_conversation_history (mem : ConversationMemory)
    (session_id : String) : List Message :=
  (List.lookup session_id mem.conversations).getD []

/-- Embeds `ConversationMemory.get_last_n_messages`: Python
`history[-n:] if history else []`.  Note that for `n = 0` the Python slice
`history[-0:]` is `history[0:]`, the whole list. -/
def ConversationMemory.get_last_n_messages (mem : ConversationMemory)
    (session_id : String) (n : ℕ) : List Message :=
  let history := mem.get_conversation_history session_id
  if history = [] then []
  else if n = 0 then history
  else takeLast n history

/-- Render one message line of the transcript
(the role label followed by the message content). -/
def renderMessage (m : Message) : String :=
  (if m.role = "user" then "User" else "Assistant") ++ ": " ++ m.content

/-- Embeds `ConversationMemory.format_history_for_prompt`. -/
def ConversationMemory.format_history_for_prompt (mem : ConversationMemory)
    (session_id : String) (include_last_n : ℕ) : String :=
  let messages := mem.get_last_n_messages session_id include_last_n
  if messages = [] then "This is the start of the conversation."
  else String.intercalate "\n"
    ("Previous conversation:" :: messages.map renderMessage)

/-- Embeds `ConversationMemory.clear_session`: `del self.conversations[session_id]`
guarded by a membership check.  Deleting a key from a Python dict (unique
keys) is modelled by filtering the binding out. -/
def ConversationMemory.clear_session (mem : ConversationMemory)
    (session_id : String) : ConversationMemory :=
  if (List.lookup session_id mem.conversations).isSome then
    { mem with conversations :=
        mem.conversations.filter (fun p => p.1 != session_id) }
  else mem

/-! ### Association-list lemmas -/

theorem lookup_setSession_self {α : Type} (l : List (String × α)) (s : String)
    (v : α) : List.lookup s (setSession l s v) = some v := by
  induction l with
  | nil => simp [setSession, List.lookup_cons]
  | cons p rest ih =>
      obtain ⟨k, w⟩ := p
      by_cases h : k = s
      · subst h
        simp [setSession, List.lookup_cons]
      · have hb : (s == k) = false := beq_eq_false_iff_ne.mpr (Ne.symm h)
        simp [setSession, h, List.lookup_cons, hb, ih]

theorem lookup_setSession_ne {α : Type} (l : List (String × α)) (s s' : String)
    (v : α) (h : s' ≠ s) :
    List.lookup s' (setSession l s v) = List.lookup s' l := by
  have hb : (s' == s) = false := beq_eq_false_iff_ne.mpr h
  induction l with
  | nil => simp [setSession, List.lookup_cons, hb]
  | cons p rest ih =>
      obtain ⟨k, w⟩ := p
      by_cases hk : k = s
      · subst hk
        simp [setSession, List.lookup_cons, hb]
      · rcases eq_or_ne s' k with h' | h'
        · subst h'
          simp [setSession, hk, List.lookup_cons]
        · have hb' : (s' == k) = false := beq_eq_false_iff_ne.mpr h'
          simp [setSession, hk, List.lookup_cons, hb', ih]

theorem lookup_filter_ne {α : Type} (l : List (String × α)) (s : String) :
    List.lookup s (l.filter (fun p => p.1 != s)) = none := by
  induction l with
  | nil => simp
  | cons p rest ih =>
      obtain ⟨k, w⟩ := p
      by_cases h : k = s
      · subst h
        simpa [List.filter_cons] using ih
      · have hb : (s == k) = false := beq_eq_false_iff_ne.mpr (Ne.symm h)
        simp [List.filter_cons, bne_iff_ne, h, List.lookup_cons, hb, ih]

/-! ### Prompt Builder / Generation Client (`backend/llm_engine.py`) -/

/-- System instruction for `mode == "business"` in `LLMEngine.build_prompt`. -/
def businessSystemPrompt : String :=
  "You are a business professional assistant. Provide detailed, structured, precise answers " ++
  "for business-related queries. Be professional, concise, and actionable."

/-- System instruction for `mode == "education"`. -/
def educationSystemPrompt : String :=
  "You are an educational tutor assistant. Explain concepts clearly, give examples, and " ++
  "help the user understand step by step."

/-- General-purpose system instruction (the `else` branch, used for
`"default"` and any unrecognised mode). -/
def defaultSystemPrompt : String :=
  "You are GROK — an intelligent, witty, professional assistant with deep knowledge in " ++
  "AI, education, coding, reasoning, psychology, technology, and research. " ++
  "Always give detailed, structured, clear, and smart answers. " ++
  "Never behave like a simple customer-support bot."

/-- Python truthiness of an optional string argument
(`None` and `""` are falsy). -/
def strTruthy : Option String → Bool
  | none => false
  | some s => s != ""

/-- Embeds `LLMEngine.build_prompt(user_query, context, conversation_history, mode)`:
returns `(system_prompt, user_prompt)`.  `conversation_history` defaults to
`None` in the source, hence the `Option`. -/
def LLMEngine.build_prompt (user_query : String) (context : String)
    (conversation_history : Option String) (mode : String) : String × String :=
  let system_prompt :=
    if mode = "business" then businessSystemPrompt
    else if mode = "education" then educationSystemPrompt
    else defaultSystemPrompt
  let user_prompt :=
    (if strTruthy conversation_history then
        "Conversation History:\n" ++ conversation_history.getD "" ++ "\n"
      else "") ++
    (if context != "" then "Context:\n" ++ context ++ "\n" else "") ++
    ("User Question:\n" ++ user_query ++ "\n")
  (system_prompt, user_prompt)

/-- The part of the f-string in `LLMEngine.get_fallback_response` before
`{user_query}`. -/
def fallbackPre : String :=
  "I apologize, but I\x27m having trouble processing your request right now.\n\n" ++
  "However, I can help you with:\n" ++
  "* Account management questions\n" ++
  "* Billing and payment inquiries\n" ++
  "* Technical support issues\n" ++
  "* Subscription and plan information\n" ++
  "* Privacy and security questions\n\n" ++
  "Your question was: \""

/-- The part of the f-string in `LLMEngine.get_fallback_response` after
`{user_query}`. -/
def fallbackPost : String :=
  "\".\nPlease try rephrasing your question or contact support."

/-- Embeds `LLMEngine.get_fallback_response(user_query)`: the deterministic,
network-independent canned reply that interpolates the original query. -/
def LLMEngine.get_fallback_response (user_query : String) : String :=
  fallbackPre ++ user_query ++ fallbackPost

/-- Outcome of `LLMEngine.ask_llm` / `LLMEngine.generate_response`
(the dict `{"success": ..., "response": ..., "error": ...}`); the network
call itself is external, so a value of this type is supplied as an oracle. -/
structure LLMResult where
  success : Bool
  response : String
  error : Option String
  deriving DecidableEq, Repr

/-! ### Document Store (`backend/database.py`, duplicated in
`backend/knowledge_base.py`) -/

/-- A normalized document (`KnowledgeBase._prepare_documents`). -/
structure Document where
  id : String
  type : String
  category : String
  content : String
  metadata : List (String × String)
  deriving DecidableEq, Repr

/-- A raw FAQ source record: a JSON object whose fields are read with
`faq.get(key, default)`, so every field is optional. -/
structure FaqRecord where
  id : Option String
  question : Option String
  answer : Option String
  category : Option String
  deriving DecidableEq, Repr

/-- A raw policy source record. -/
structure PolicyRecord where
  id : Option String
  title : Option String
  category : Option String
  content : Option String
  deriving DecidableEq, Repr

/-- State of `KnowledgeBase` (both copies of the class hold the same three
lists; `data_dir` only selects the external files and is left implicit). -/
structure KnowledgeBase where
  faqs : List FaqRecord
  policies : List PolicyRecord
  all_documents : List Document
  deriving DecidableEq, Repr

/-- The external filesystem as seen by `KnowledgeBase.load_data`:
`none` means the JSON file is absent (`os.path.exists` fails),
`some records` means it exists and parses to that list. -/
structure DataDir where
  faqs_json : Option (List FaqRecord)
  policies_json : Option (List PolicyRecord)
  deriving DecidableEq, Repr

/-- Embeds `KnowledgeBase._prepare_documents` (`backend/database.py` version;
the `backend/knowledge_base.py` copy differs only in storing the raw record
itself as `metadata`). -/
def prepare_documents (faqs : List FaqRecord) (policies : List PolicyRecord) :
    List Document :=
  (faqs.map fun faq =>
    { id := "faq_" ++ faq.id.getD "NA"
      type := "faq"
      category := faq.category.getD "General"
      content := "Question: " ++ faq.question.getD "" ++ "\nAnswer: " ++ faq.answer.getD ""
      metadata := [("question", faq.question.getD ""), ("answer", faq.answer.getD ""),
                   ("category", faq.category.getD "")] }) ++
  (policies.map fun policy =>
    { id := "policy_" ++ policy.id.getD "NA"
      type := "policy"
      category := policy.category.getD "General"
      content := "Title: " ++ policy.title.getD "" ++ "\nCategory: " ++
                 policy.category.getD "" ++ "\nContent: " ++ policy.content.getD ""
      metadata := [("title", policy.title.getD ""), ("category", policy.category.getD ""),
                   ("content", policy.content.getD "")] })

/-- Embeds `KnowledgeBase.load_data`: sequentially checks/loads `faqs.json`
(assigning `self.faqs`), then checks/loads `policies.json` (assigning
`self.policies`), then rebuilds `self.all_documents`.  A missing file raises
`FileNotFoundError`, caught by the surrounding `except`, which returns
`False` with whatever assignments already happened left in place.
Returns `(return value, post state)`. -/
def KnowledgeBase.load_data (kb : KnowledgeBase) (dir : DataDir) :
    Bool × KnowledgeBase :=
  match dir.faqs_json with
  | none => (false, kb)
  | some fs =>
      let kb1 : KnowledgeBase := { kb with faqs := fs }
      match dir.policies_json with
      | none => (false, kb1)
      | some ps =>
          let kb2 : KnowledgeBase := { kb1 with policies := ps }
          let kb3 : KnowledgeBase :=
            { kb2 with all_documents := prepare_documents kb2.faqs kb2.policies }
          (true, kb3)

/-! ### Embedding Index (`backend/rag_engine.py`) -/

/-- An embedding vector (a NumPy float row, modelled over `ℚ`). -/
abbrev Vec := List ℚ

/-- State of `RAGEngine` relevant to retrieval and persistence:
`model_name`, the parallel `embeddings`/`documents` arrays (`embeddings` is
`None` until built or loaded), and the documents list.  The
`SentenceTransformer` model itself is external and is passed to operations
as an encoding oracle. -/
structure RAGEngine where
  model_name : String
  embeddings : Option (List Vec)
  documents : List Document
  deriving DecidableEq, Repr

/-- The pickled payload written by `RAGEngine._save_vector_store`
(`{"embeddings": ..., "documents": ..., "model_name": ...}`).  Pickling and
unpickling is modelled as the identity on this value. -/
structure VectorStoreData where
  embeddings : Option (List Vec)
  documents : List Document
  model_name : String
  deriving DecidableEq, Repr

/-- Embeds `RAGEngine._save_vector_store`: the payload written to `vectors.pkl`. -/
def RAGEngine.save_vector_store (e : RAGEngine) : VectorStoreData :=
  ⟨e.embeddings, e.documents, e.model_name⟩

/-- Embeds `RAGEngine._load_vector_store`: `file = none` models a missing
`vectors.pkl` (`os.path.exists` fails); otherwise the unpickled payload.
Returns `False` and leaves the engine untouched on a missing file or a
`model_name` mismatch; on success installs the stored embeddings and
documents and returns `True`. -/
def RAGEngine.load_vector_store (e : RAGEngine) (file : Option VectorStoreData) :
    Bool × RAGEngine :=
  match file with
  | none => (false, e)
  | some data =>
      if data.model_name ≠ e.model_name then (false, e)
      else (true, { e with embeddings := data.embeddings, documents := data.documents })

/-- Ascending comparison of similarity values by index, with ties broken by
the original index: the order realised by `np.argsort` under its stable
reading (for arrays below the NumPy introsort threshold the sort performed is
insertion sort, which is stable, so equal values keep their original
relative order). -/
def idxRel (key : ℕ → ℚ) (i j : ℕ) : Prop :=
  key i < key j ∨ (key i = key j ∧ i ≤ j)

instance idxRelDecidable (key : ℕ → ℚ) : DecidableRel (idxRel key) :=
  fun i j => inferInstanceAs (Decidable (key i < key j ∨ (key i = key j ∧ i ≤ j)))

instance idxRelTotal (key : ℕ → ℚ) : IsTotal ℕ (idxRel key) := by
  constructor
  intro i j
  rcases lt_trichotomy (key i) (key j) with h | h | h
  · exact Or.inl (Or.inl h)
  · rcases Nat.le_total i j with hij | hij
    · exact Or.inl (Or.inr ⟨h, hij⟩)
    · exact Or.inr (Or.inr ⟨h.symm, hij⟩)
  · exact Or.inr (Or.inl h)

instance idxRelTrans (key : ℕ → ℚ) : IsTrans ℕ (idxRel key) := by
  constructor
  intro a b c hab hbc
  rcases hab with h1 | ⟨h1, h1'⟩ <;> rcases hbc with h2 | ⟨h2, h2'⟩
  · exact Or.inl (h1.trans h2)
  · exact Or.inl (h2 ▸ h1)
  · exact Or.inl (h1 ▸ h2)
  · exact Or.inr ⟨h1.trans h2, h1'.trans h2'⟩

/-- Models `np.argsort(similarities)`: the indices `0, …, n-1` sorted in ascending
order of similarity, equal values keeping their original index order. -/
def argsort (sims : List ℚ) : List ℕ :=
  List.insertionSort (idxRel fun i => sims.getD i 0) (List.range sims.length)

/-- Models `np.argsort(similarities)[-top_k:][::-1]` with Python slice semantics:
for `top_k = 0` the slice `[-0:]` is the whole array. -/
def topIndices (sims : List ℚ) (top_k : ℕ) : List ℕ :=
  ((argsort sims).drop (if top_k = 0 then 0 else sims.length - top_k)).reverse

/-- One element of the result list of `RAGEngine.retrieve_context`
(`{"document": ..., "score": ..., "rank": ...}`). -/
structure RetrievalResult where
  document : Document
  score : ℚ
  rank : ℕ
  deriving DecidableEq, Repr

/-- Placeholder document for out-of-range index access (the Python code
would raise `IndexError`, caught by the `except` in `retrieve_context`; all
theorems below assume the index invariant `|embeddings| = |documents|`,
under which this default is never used). -/
def defaultDocument : Document := ⟨"", "", "", "", []⟩

/-- The loop body of `retrieve_context`: build the result records with
`rank = len(results) + 1`, i.e. consecutive ranks starting at `r`. -/
def buildResults (docs : List Document) (sims : List ℚ) :
    List ℕ → ℕ → List RetrievalResult
  | [], _ => []
  | idx :: rest, r =>
      ⟨docs.getD idx defaultDocument, sims.getD idx 0, r⟩ ::
        buildResults docs sims rest (r + 1)

/-- Embeds `RAGEngine.retrieve_context(query, top_k)`.  The embedding model and
the sklearn `cosine_similarity` are external: `enc` encodes a text into the
vector space and `sim` scores a query vector against a stored vector
(`cosine_similarity(query_embedding, self.embeddings)[0]`). -/
def RAGEngine.retrieve_context (enc : String → Vec) (sim : Vec → Vec → ℚ)
    (e : RAGEngine) (query : String) (top_k : ℕ) : List RetrievalResult :=
  match e.embeddings with
  | none => []
  | some embs =>
      if embs.length = 0 then []
      else
        let query_embedding := enc query
        let similarities := embs.map (fun v => sim query_embedding v)
        buildResults e.documents similarities (topIndices similarities top_k) 1

/-! ### Chat Orchestrator (`backend/app.py`, `POST /chat`) -/

/-- Embeds the `ChatRequest` pydantic model. -/
structure ChatRequest where
  message : String
  session_id : Option String
  include_context : Bool
  top_k : ℕ
  mode : String
  deriving DecidableEq, Repr

/-- Embeds the `ChatResponse` pydantic model; `processing_time` over `ℚ`. -/
structure ChatResponse where
  success : Bool
  response : String
  session_id : String
  processing_time : ℚ
  context_used : ℕ
  error : Option String
  deriving DecidableEq, Repr

/-- Everything external observed during a `chat` request whose `try` block
runs to completion: the retrieval outcome
(`rag_engine.get_relevant_context`, when `include_context` holds), the LLM
outcome (`llm_engine.generate_response`), the four `datetime.now()`
timestamps taken by the two `add_message` and two `log_message` calls, and
the two `round(time.time() - t0, 3)` readings (one stored in the assistant
analytics record, one returned in the response). -/
structure ChatOkEnv where
  docs : List RetrievalResult
  llm_result : LLMResult
  ts1 : String
  ts2 : String
  ts3 : String
  ts4 : String
  elapsed_log : ℚ
  elapsed : ℚ
  deriving DecidableEq, Repr

/-- The `/chat` handler.  `genId` is the `str(uuid.uuid4())` drawn when the
request carries no session id.  `outcome` is `.ok env` when the `try` body
runs to completion with the external observations `env` (the generated
history string `format_history_for_prompt(session_id, 5)` and the formatted
context string are passed to the external `generate_response`, whose result
is `env.llm_result`); it is `.error (e, el)` when an exception with message
`e` escapes the pipeline after `el` elapsed seconds.  Returns the HTTP
response together with the post-state of the shared `ConversationMemory`. -/
def chat (mem : ConversationMemory) (req : ChatRequest) (genId : String)
    (outcome : Except (String × ℚ) ChatOkEnv) :
    ChatResponse × ConversationMemory :=
  let session_id := req.session_id.getD genId
  match outcome with
  | .error (e, el) =>
      (⟨false, "Internal error.", session_id, el, 0, some e⟩, mem)
  | .ok env =>
      let docs := if req.include_context then env.docs else []
      let bot_response :=
        if env.llm_result.success then env.llm_result.response
        else LLMEngine.get_fallback_response req.message
      let memA := mem.add_message session_id "user" req.message env.ts1 []
      let memB := memA.add_message session_id "assistant" bot_response env.ts2 []
      let memC := memB.log_message session_id "user" req.message env.ts3 docs.length none []
      let memD := memC.log_message session_id "assistant" bot_response env.ts4
        docs.length (some env.elapsed_log) []
      (⟨true, bot_response, session_id, env.elapsed, docs.length, none⟩, memD)

/-! ### Supporting lemmas about `ConversationMemory` -/

theorem add_message_max (mem : ConversationMemory) (s r c t : String)
    (md : List (String × String)) :
    (mem.add_message s r c t md).max_messages = mem.max_messages := rfl

theorem add_message_analytics (mem : ConversationMemory) (s r c t : String)
    (md : List (String × String)) :
    (mem.add_message s r c t md).analytics_log =
      mem.analytics_log ++ [⟨s, r, c, t, 0, none, md⟩] := rfl

theorem log_message_analytics (mem : ConversationMemory) (s r c t : String)
    (cu : ℕ) (pt : Option ℚ) (md : List (String × String)) :
    (mem.log_message s r c t cu pt md).analytics_log =
      mem.analytics_log ++ [⟨s, r, c, t, cu, pt, md⟩] := rfl

theorem log_message_conversations (mem : ConversationMemory) (s r c t : String)
    (cu : ℕ) (pt : Option ℚ) (md : List (String × String)) :
    (mem.log_message s r c t cu pt md).conversations = mem.conversations := rfl

theorem get_history_add_self (mem : ConversationMemory) (s r c t : String)
    (md : List (String × String)) :
    (mem.add_message s r c t md).get_conversation_history s =
      dequeAppend mem.max_messages (mem.get_conversation_history s) ⟨r, c, t, md⟩ := by
  unfold ConversationMemory.add_message ConversationMemory.get_conversation_history
    ConversationMemory.log_message
  simp [lookup_setSession_self]

theorem get_history_add_other (mem : ConversationMemory) (s s' r c t : String)
    (md : List (String × String)) (h : s' ≠ s) :
    (mem.add_message s r c t md).get_conversation_history s' =
      mem.get_conversation_history s' := by
  unfold ConversationMemory.add_message ConversationMemory.get_conversation_history
    ConversationMemory.log_message
  simp [lookup_setSession_ne _ _ _ _ h]

/-- One call of the claim-C4 experiment: the arguments of one
`add_message` invocation. -/
structure AddCall where
  session_id : String
  role : String
  content : String
  now : String
  metadata : List (String × String)
  deriving DecidableEq, Repr

/-- Replay a sequence of `add_message` calls against a memory. -/
def runAdds (mem : ConversationMemory) (calls : List AddCall) :
    ConversationMemory :=
  calls.foldl
    (fun m c => m.add_message c.session_id c.role c.content c.now c.metadata) mem

/-- The messages a call sequence adds to one session, in call order. -/
def msgsFor (sid : String) (calls : List AddCall) : List Message :=
  (calls.filter (fun c => c.session_id == sid)).map
    (fun c => ⟨c.role, c.content, c.now, c.metadata⟩)

theorem runAdds_history (calls : List AddCall) (mem : ConversationMemory)
    (sid : String)
    (hlen : (mem.get_conversation_history sid).length ≤ mem.max_messages) :
    (runAdds mem calls).get_conversation_history sid =
      takeLast mem.max_messages
        (mem.get_conversation_history sid ++ msgsFor sid calls) := by
  induction calls generalizing mem with
  | nil =>
      simp [runAdds, msgsFor, takeLast_of_length_le _ _ hlen]
  | cons c cs ih =>
      have hstep : runAdds mem (c :: cs) =
          runAdds (mem.add_message c.session_id c.role c.content c.now c.metadata) cs := rfl
      rw [hstep]
      set mem1 := mem.add_message c.session_id c.role c.content c.now c.metadata with hmem1
      have hmax : mem1.max_messages = mem.max_messages := rfl
      by_cases hs : c.session_id = sid
      · have hh1 : mem1.get_conversation_history sid =
            dequeAppend mem.max_messages (mem.get_conversation_history sid)
              ⟨c.role, c.content, c.now, c.metadata⟩ := by
          rw [hmem1, ← hs]
          exact get_history_add_self mem c.session_id c.role c.content c.now c.metadata
        have hlen1 : (mem1.get_conversation_history sid).length ≤ mem1.max_messages := by
          rw [hh1, hmax]
          exact takeLast_length_le _ _
        rw [ih mem1 hlen1, hmax, hh1]
        unfold dequeAppend
        rw [takeLast_append_takeLast]
        have hmsgs : msgsFor sid (c :: cs) =
            (⟨c.role, c.content, c.now, c.metadata⟩ : Message) :: msgsFor sid cs := by
          simp [msgsFor, List.filter_cons, hs]
        rw [hmsgs, List.append_assoc]
        rfl
      · have hh1 : mem1.get_conversation_history sid = mem.get_conversation_history sid :=
          get_history_add_other mem c.session_id sid c.role c.content c.now c.metadata
            (fun h => hs h.symm)
        have hlen1 : (mem1.get_conversation_history sid).length ≤ mem1.max_messages := by
          rw [hh1, hmax]; exact hlen
        rw [ih mem1 hlen1, hmax, hh1]
        have hmsgs : msgsFor sid (c :: cs) = msgsFor sid cs := by
          simp [msgsFor, List.filter_cons, hs]
        rw [hmsgs]

/-- Claim C4: For every capacity `N` (the source default is 10) and every
sequence of `add_message` calls starting from a fresh
`ConversationMemory(max_messages=N)`, the history of each session is exactly the
last `N` messages added to that session, in their original chronological
order — FIFO eviction — and in particular never holds more than `N`
messages. -/
theorem c4_sliding_window (N : ℕ) (calls : List AddCall) (sid : String) :
    (runAdds (emptyMemory N) calls).get_conversation_history sid =
      takeLast N (msgsFor sid calls) ∧
    ((runAdds (emptyMemory N) calls).get_conversation_history sid).length ≤ N := by
  have h := runAdds_history calls (emptyMemory N) sid (by simp [emptyMemory, ConversationMemory.get_conversation_history])
  have hist : (emptyMemory N).get_conversation_history sid = [] := rfl
  rw [hist] at h
  simp only [List.nil_append] at h
  exact ⟨h, h ▸ takeLast_length_le _ _⟩

/-- Claim C5, counterexample: The claim quantifies over *every* `lastN`, but
for `lastN = 0` the Python slice `history[-0:]` is the whole history, so
`format_history_for_prompt` returns a transcript containing one message —
more than `lastN = 0` — instead of a transcript with at most `lastN`
messages.  Concretely: one message `"hi"` in session `"s"`, `lastN = 0`. -/
theorem c5_counterexample :
    ((emptyMemory 10).add_message "s" "user" "hi" "t0" []).format_history_for_prompt "s" 0 =
      "Previous conversation:\nUser: hi" ∧
    (((emptyMemory 10).add_message "s" "user" "hi" "t0" []).get_last_n_messages "s" 0).length = 1 := by
  constructor <;> rfl

/-- Claim C5, amended: For every memory state, session id and `lastN ≥ 1`:
`format_history_for_prompt` returns the canonical start-of-conversation
sentinel when the session has zero messages (in particular when it is
unknown), and otherwise returns the transcript of exactly the last `lastN`
messages of that session (hence at most `lastN` of them) in chronological
order.  The amendment excludes `lastN = 0`, where the Python slice
`history[-0:]` yields the whole history. -/
theorem c5_format_for_prompt (mem : ConversationMemory) (sid : String) (n : ℕ)
    (hn : 1 ≤ n) :
    (mem.get_conversation_history sid = [] →
        mem.format_history_for_prompt sid n = "This is the start of the conversation.") ∧
    mem.get_last_n_messages sid n = takeLast n (mem.get_conversation_history sid) ∧
    (mem.get_last_n_messages sid n).length ≤ n ∧
    (mem.get_conversation_history sid ≠ [] →
        mem.format_history_for_prompt sid n =
          String.intercalate "\n" ("Previous conversation:" ::
            (takeLast n (mem.get_conversation_history sid)).map renderMessage)) := by
  have hn0 : n ≠ 0 := by omega
  have hlast : mem.get_last_n_messages sid n =
      takeLast n (mem.get_conversation_history sid) := by
    unfold ConversationMemory.get_last_n_messages
    by_cases hh : mem.get_conversation_history sid = []
    · simp [hh, takeLast]
    · simp [hh, hn0]
  refine ⟨?_, hlast, ?_, ?_⟩
  · intro hh
    unfold ConversationMemory.format_history_for_prompt
    rw [hlast, hh]
    simp [takeLast]
  · rw [hlast]; exact takeLast_length_le _ _
  · intro hh
    have hpos : 0 < (mem.get_conversation_history sid).length :=
      List.length_pos.mpr hh
    have hne : takeLast n (mem.get_conversation_history sid) ≠ [] := by
      have : (takeLast n (mem.get_conversation_history sid)).length =
          (mem.get_conversation_history sid).length -
            ((mem.get_conversation_history sid).length - n) := by
        simp [takeLast]
      intro hcon
      rw [hcon] at this
      simp at this
      omega
    unfold ConversationMemory.format_history_for_prompt
    rw [hlast]
    simp [hne]

/-- The witness for `c5_format_for_prompt`: instantiated at a memory with
one message in session `"s"` and `lastN = 5`. -/
theorem c5_witness :
    (((emptyMemory 10).add_message "s" "user" "hi" "t0" []).get_conversation_history "s" ≠ [] →
      ((emptyMemory 10).add_message "s" "user" "hi" "t0" []).format_history_for_prompt "s" 5 =
        String.intercalate "\n" ("Previous conversation:" ::
          (takeLast 5 (((emptyMemory 10).add_message "s" "user" "hi" "t0" []).get_conversation_history "s")).map renderMessage)) ∧
    ((emptyMemory 10).format_history_for_prompt "s" 5 = "This is the start of the conversation.") := by
  constructor
  · exact (c5_format_for_prompt ((emptyMemory 10).add_message "s" "user" "hi" "t0" []) "s" 5 (by decide)).2.2.2
  · exact (c5_format_for_prompt (emptyMemory 10) "s" 5 (by decide)).1 rfl

/-- Claim C8: `clear_session` leaves the analytics log untouched (every
record present before the clear, including those of the cleared session,
remains afterwards), empties the history of the cleared session, is idempotent,
and is a no-op on an unknown session id. -/
theorem c8_clear_session_frame (mem : ConversationMemory) (sid : String) :
    (mem.clear_session sid).analytics_log = mem.analytics_log ∧
    (mem.clear_session sid).get_conversation_history sid = [] ∧
    (mem.clear_session sid).clear_session sid = mem.clear_session sid ∧
    (List.lookup sid mem.conversations = none → mem.clear_session sid = mem) := by
  have hlook : List.lookup sid (mem.clear_session sid).conversations = none := by
    unfold ConversationMemory.clear_session
    cases hc : List.lookup sid mem.conversations with
    | none => simp [hc]
    | some v =>
        simp only [hc, Option.isSome_some, if_true]
        exact lookup_filter_ne mem.conversations sid
  refine ⟨?_, ?_, ?_, ?_⟩
  · unfold ConversationMemory.clear_session
    by_cases h : (List.lookup sid mem.conversations).isSome
    · rw [if_pos h]
    · rw [if_neg h]
  · unfold ConversationMemory.get_conversation_history
    rw [hlook]; rfl
  · generalize hm : mem.clear_session sid = m' at hlook ⊢
    unfold ConversationMemory.clear_session
    simp [hlook]
  · intro h
    unfold ConversationMemory.clear_session
    simp [h]

/-- The witness for `c8_clear_session_frame`: a concrete memory holding one
message and one analytics record in session `"s"`, cleared twice. -/
theorem c8_witness :
    (((emptyMemory 10).add_message "s" "user" "hi" "t0" []).clear_session "s").analytics_log =
      ((emptyMemory 10).add_message "s" "user" "hi" "t0" []).analytics_log ∧
    ((((emptyMemory 10).add_message "s" "user" "hi" "t0" []).clear_session "s").get_conversation_history "s" = []) ∧
    ((((emptyMemory 10).add_message "s" "user" "hi" "t0" []).clear_session "s").clear_session "s" =
      ((emptyMemory 10).add_message "s" "user" "hi" "t0" []).clear_session "s") ∧
    (List.lookup "s" ((emptyMemory 10).add_message "s" "user" "hi" "t0" []).conversations = none →
      ((emptyMemory 10).add_message "s" "user" "hi" "t0" []).clear_session "s" =
        (emptyMemory 10).add_message "s" "user" "hi" "t0" []) :=
  c8_clear_session_frame ((emptyMemory 10).add_message "s" "user" "hi" "t0" []) "s"

/-- Claim C2, counterexample: A failed load does *not* leave the previously
loaded state untouched: when `faqs.json` is present but `policies.json` is
absent, `load_data` returns `False` yet has already overwritten
`self.faqs` with the freshly parsed FAQ list (the assignment happens before
the policy-file check).  Here the store holds one old FAQ record and the
directory offers a different one with no policy file. -/
theorem c2_counterexample :
    (KnowledgeBase.load_data
        ⟨[⟨some "1", some "old q", some "old a", none⟩], [], []⟩
        ⟨some [⟨some "2", some "new q", some "new a", none⟩], none⟩).1 = false ∧
    (KnowledgeBase.load_data
        ⟨[⟨some "1", some "old q", some "old a", none⟩], [], []⟩
        ⟨some [⟨some "2", some "new q", some "new a", none⟩], none⟩).2.faqs =
      [⟨some "2", some "new q", some "new a", none⟩] ∧
    [(⟨some "2", some "new q", some "new a", none⟩ : FaqRecord)] ≠
      [⟨some "1", some "old q", some "old a", none⟩] := by
  refine ⟨rfl, rfl, ?_⟩
  decide

/-- Claim C2, amended: `load_data` reports failure exactly when either
backing collection is absent.  When the FAQ collection is absent the whole
previous state is untouched; but the load is *not* all-or-nothing: when the
FAQ collection is present and only the policy collection is absent, the
failed load leaves `policies` and `all_documents` unchanged while `faqs`
has already been overwritten with the freshly parsed FAQ records. -/
theorem c2_load_data (kb : KnowledgeBase) (dir : DataDir) :
    ((kb.load_data dir).1 = true ↔
        dir.faqs_json ≠ none ∧ dir.policies_json ≠ none) ∧
    (dir.faqs_json = none → kb.load_data dir = (false, kb)) ∧
    (∀ fs, dir.faqs_json = some fs → dir.policies_json = none →
        kb.load_data dir = (false, { kb with faqs := fs })) := by
  obtain ⟨fj, pj⟩ := dir
  refine ⟨?_, ?_, ?_⟩
  · cases fj with
    | none => simp [KnowledgeBase.load_data]
    | some fs =>
        cases pj with
        | none => simp [KnowledgeBase.load_data]
        | some ps => simp [KnowledgeBase.load_data]
  · intro h
    cases fj with
    | none => rfl
    | some fs => simp at h
  · intro fs hf hp
    cases fj with
    | none => simp at hf
    | some fs' =>
        cases pj with
        | none =>
            simp only [Option.some.injEq] at hf
            subst hf
            rfl
        | some ps => simp at hp

/-- The witness for `c2_load_data`: a store with empty previous state, a
directory holding one FAQ record and no policy file. -/
theorem c2_witness :
    KnowledgeBase.load_data ⟨[], [], []⟩
        ⟨some [⟨some "1", some "q", some "a", none⟩], none⟩ =
      (false, ⟨[⟨some "1", some "q", some "a", none⟩], [], []⟩) :=
  (c2_load_data ⟨[], [], []⟩ ⟨some [⟨some "1", some "q", some "a", none⟩], none⟩).2.2
    [⟨some "1", some "q", some "a", none⟩] rfl rfl

/-- Claim C6: `retrieve_context` on an index with zero stored vectors —
`self.embeddings` still `None` (uninitialized) or the empty array — returns
the empty list for every query and every `top_k`.  (The embedded function
is total, mirroring the `try/except` of the source which converts any failure
into `[]`, so no error can escape.) -/
theorem c6_empty_index (enc : String → Vec) (sim : Vec → Vec → ℚ)
    (e : RAGEngine) (q : String) (k : ℕ)
    (h : e.embeddings = none ∨ e.embeddings = some []) :
    RAGEngine.retrieve_context enc sim e q k = [] := by
  rcases h with h | h <;> simp [RAGEngine.retrieve_context, h]

/-- The witness for `c6_empty_index`: an engine whose vector store was
never built. -/
theorem c6_witness :
    RAGEngine.retrieve_context (fun _ => []) (fun _ _ => 0)
      ⟨"all-MiniLM-L6-v2", none, []⟩ "How do I reset my password?" 3 = [] :=
  c6_empty_index (fun _ => []) (fun _ _ => 0)
    ⟨"all-MiniLM-L6-v2", none, []⟩ "How do I reset my password?" 3 (Or.inl rfl)

/-- Claim C9: The vector-store snapshot round-trips exactly: loading a saved
payload under the same configured model installs bit-for-bit the saved
embeddings and field-for-field the saved documents (loading the snapshot saved by the same engine is the identity), and a load reports success only when the stored model
identifier equals the configured one (a missing file always fails and
leaves the engine untouched). -/
theorem c9_snapshot_roundtrip (e e0 : RAGEngine) (d : VectorStoreData)
    (h : e.model_name = e0.model_name) :
    e.load_vector_store (some e0.save_vector_store) =
      (true, { e with embeddings := e0.embeddings, documents := e0.documents }) ∧
    e0.load_vector_store (some e0.save_vector_store) = (true, e0) ∧
    ((e.load_vector_store (some d)).1 = true → d.model_name = e.model_name) ∧
    e.load_vector_store none = (false, e) := by
  refine ⟨?_, ?_, ?_, rfl⟩
  · simp [RAGEngine.load_vector_store, RAGEngine.save_vector_store, h]
  · simp [RAGEngine.load_vector_store, RAGEngine.save_vector_store]
  · intro ht
    by_cases hm : d.model_name = e.model_name
    · exact hm
    · simp [RAGEngine.load_vector_store, hm] at ht

/-- The witness for `c9_snapshot_roundtrip`: one concrete engine with one
vector and one document, reloading its own snapshot. -/
theorem c9_witness :
    (RAGEngine.load_vector_store ⟨"all-MiniLM-L6-v2", none, []⟩
        (some (RAGEngine.save_vector_store
          ⟨"all-MiniLM-L6-v2", some [[1, 0]], [⟨"faq_1", "faq", "General", "x", []⟩]⟩)) =
      (true, ⟨"all-MiniLM-L6-v2", some [[1, 0]], [⟨"faq_1", "faq", "General", "x", []⟩]⟩)) ∧
    (RAGEngine.load_vector_store
        ⟨"all-MiniLM-L6-v2", some [[1, 0]], [⟨"faq_1", "faq", "General", "x", []⟩]⟩ none =
      (false, ⟨"all-MiniLM-L6-v2", some [[1, 0]], [⟨"faq_1", "faq", "General", "x", []⟩]⟩)) := by
  have h := c9_snapshot_roundtrip ⟨"all-MiniLM-L6-v2", none, []⟩
    ⟨"all-MiniLM-L6-v2", some [[1, 0]], [⟨"faq_1", "faq", "General", "x", []⟩]⟩
    ⟨none, [], ""⟩ rfl
  have h2 := c9_snapshot_roundtrip
    ⟨"all-MiniLM-L6-v2", some [[1, 0]], [⟨"faq_1", "faq", "General", "x", []⟩]⟩
    ⟨"all-MiniLM-L6-v2", some [[1, 0]], [⟨"faq_1", "faq", "General", "x", []⟩]⟩
    ⟨none, [], ""⟩ rfl
  exact ⟨h.1, h2.2.2.2⟩

/-! ### String append helpers -/

theorem strEmptyAppend (s : String) : "" ++ s = s := by cases s; rfl

theorem strAppendAssoc (a b c : String) : a ++ b ++ c = a ++ (b ++ c) := by
  apply String.ext
  simp

theorem strTruthy_none : strTruthy none = false := rfl

/-- Claim C7: `build_prompt` selects the business / education /
general-purpose system instruction by `mode`, with every unrecognised mode
falling back to the general-purpose instruction (total, never an error);
and the user payload concatenates in fixed order a history section (only
when the history argument is truthy, i.e. neither `None` nor empty), a
context section (only when the context is non-empty), and the literal
query, so no empty labeled block is ever emitted. -/
theorem c7_build_prompt (q c : String) (h : Option String) (mode : String) :
    (mode ≠ "business" → mode ≠ "education" →
      (LLMEngine.build_prompt q c h mode).1 = defaultSystemPrompt) ∧
    (LLMEngine.build_prompt q c h "business").1 = businessSystemPrompt ∧
    (LLMEngine.build_prompt q c h "education").1 = educationSystemPrompt ∧
    (LLMEngine.build_prompt q c h mode).2 =
      (if strTruthy h then "Conversation History:\n" ++ h.getD "" ++ "\n" else "") ++
        (LLMEngine.build_prompt q c none mode).2 ∧
    (strTruthy h = false →
      (LLMEngine.build_prompt q c h mode).2 = (LLMEngine.build_prompt q c none mode).2) ∧
    (LLMEngine.build_prompt q "" none mode).2 = "User Question:\n" ++ q ++ "\n" ∧
    (c ≠ "" →
      (LLMEngine.build_prompt q c none mode).2 =
        "Context:\n" ++ c ++ "\n" ++ (LLMEngine.build_prompt q "" none mode).2) ∧
    (LLMEngine.build_prompt q "" h mode).2 =
      (if strTruthy h then "Conversation History:\n" ++ h.getD "" ++ "\n" else "") ++
        "User Question:\n" ++ q ++ "\n" := by
  refine ⟨?_, ?_, ?_, ?_, ?_, ?_, ?_, ?_⟩
  · intro hm1 hm2
    simp [LLMEngine.build_prompt, hm1, hm2]
  · simp [LLMEngine.build_prompt]
  · simp [LLMEngine.build_prompt]
  · cases hs : strTruthy h with
    | false =>
        simp [LLMEngine.build_prompt, hs, strTruthy_none, strEmptyAppend, strAppendAssoc]
    | true =>
        simp [LLMEngine.build_prompt, hs, strTruthy_none, strEmptyAppend, strAppendAssoc]
  · intro hf
    simp [LLMEngine.build_prompt, hf, strTruthy_none, strEmptyAppend, strAppendAssoc]
  · simp [LLMEngine.build_prompt, strTruthy_none, strEmptyAppend, strAppendAssoc]
  · intro hc
    simp [LLMEngine.build_prompt, strTruthy_none, hc, strEmptyAppend, strAppendAssoc]
  · cases hs : strTruthy h with
    | false =>
        simp [LLMEngine.build_prompt, hs, strTruthy_none, strEmptyAppend, strAppendAssoc]
    | true =>
        simp [LLMEngine.build_prompt, hs, strTruthy_none, strEmptyAppend, strAppendAssoc]
        rfl

/-- The witness for `c7_build_prompt`: an unrecognised mode `"pirate"` with
a present history, once with a non-empty context and once with the empty
context (the `include_context=false` path), discharging the inner
hypotheses. -/
theorem c7_witness :
    (LLMEngine.build_prompt "Q" "C" (some "H") "pirate").1 = defaultSystemPrompt ∧
    (LLMEngine.build_prompt "Q" "C" (some "H") "pirate").2 =
      (if strTruthy (some "H") then "Conversation History:\n" ++ (some "H").getD "" ++ "\n" else "") ++
        (LLMEngine.build_prompt "Q" "C" none "pirate").2 ∧
    (LLMEngine.build_prompt "Q" "C" none "pirate").2 =
      "Context:\n" ++ "C" ++ "\n" ++ (LLMEngine.build_prompt "Q" "" none "pirate").2 ∧
    (LLMEngine.build_prompt "Q" "" (some "H") "pirate").2 =
      (if strTruthy (some "H") then "Conversation History:\n" ++ (some "H").getD "" ++ "\n" else "") ++
        "User Question:\n" ++ "Q" ++ "\n" := by
  have h := c7_build_prompt "Q" "C" (some "H") "pirate"
  have h0 := c7_build_prompt "Q" "" (some "H") "pirate"
  exact ⟨h.1 (by decide) (by decide), h.2.2.2.1,
    h.2.2.2.2.2.2.1 (by decide), h0.2.2.2.2.2.2.2⟩

/-- Claim C3: When generation fails (`llm_result["success"]` false) the chat
response body is exactly the deterministic fallback text — which contains
the original query verbatim between the fixed pieces `fallbackPre` and
`fallbackPost` — and the HTTP result still reports `success=True`; only
when an exception escapes the pipeline does `chat` return `success=False`,
carrying the exception message and the elapsed time measured so far. -/
theorem c3_fallback_success (mem : ConversationMemory) (req : ChatRequest)
    (genId : String) (env : ChatOkEnv) (e : String) (el : ℚ)
    (hfail : env.llm_result.success = false) :
    (chat mem req genId (.ok env)).1.response =
      LLMEngine.get_fallback_response req.message ∧
    (chat mem req genId (.ok env)).1.response =
      fallbackPre ++ req.message ++ fallbackPost ∧
    (chat mem req genId (.ok env)).1.success = true ∧
    (chat mem req genId (.error (e, el))).1.success = false ∧
    (chat mem req genId (.error (e, el))).1.error = some e ∧
    (chat mem req genId (.error (e, el))).1.processing_time = el := by
  refine ⟨?_, ?_, rfl, rfl, rfl, rfl⟩
  · simp [chat, hfail]
  · simp [chat, hfail, LLMEngine.get_fallback_response]

/-- The witness for `c3_fallback_success`: a timed-out generation
(`success=False`) and, on the error side, an exception `"boom"` after
`0.17` seconds. -/
theorem c3_witness :
    (chat (emptyMemory 10) ⟨"reset my password", none, true, 3, "default"⟩ "gid"
        (.ok ⟨[], ⟨false, "", some "Request timed out. Please try again."⟩,
          "t1", "t2", "t3", "t4", 1/10, 1/10⟩)).1.response =
      LLMEngine.get_fallback_response "reset my password" ∧
    (chat (emptyMemory 10) ⟨"reset my password", none, true, 3, "default"⟩ "gid"
        (.error ("boom", 17/100))).1.success = false := by
  have h := c3_fallback_success (emptyMemory 10)
    ⟨"reset my password", none, true, 3, "default"⟩ "gid"
    ⟨[], ⟨false, "", some "Request timed out. Please try again."⟩,
      "t1", "t2", "t3", "t4", 1/10, 1/10⟩ "boom" (17/100) rfl
  exact ⟨h.1, h.2.2.2.1⟩

/-- Claim C10: Every successful Chat request (the `try` body completing)
appends exactly two messages — one `user`, one `assistant` — to the
session history (subject to the sliding window), but exactly four
records to the analytics log: two written implicitly by `add_message`
(with `context_used = 0` and no processing time) followed by two written
explicitly by `log_message` (with the retrieved-document count, the
assistant one also carrying the measured processing time).  Hence the
analytics totals grow by twice the number of messages each Chat adds. -/
theorem c10_double_logging (mem : ConversationMemory) (req : ChatRequest)
    (genId : String) (env : ChatOkEnv) :
    (chat mem req genId (.ok env)).2.analytics_log =
      mem.analytics_log ++
        [⟨req.session_id.getD genId, "user", req.message, env.ts1, 0, none, []⟩,
         ⟨req.session_id.getD genId, "assistant",
           (chat mem req genId (.ok env)).1.response, env.ts2, 0, none, []⟩,
         ⟨req.session_id.getD genId, "user", req.message, env.ts3,
           (chat mem req genId (.ok env)).1.context_used, none, []⟩,
         ⟨req.session_id.getD genId, "assistant",
           (chat mem req genId (.ok env)).1.response, env.ts4,
           (chat mem req genId (.ok env)).1.context_used, some env.elapsed_log, []⟩] ∧
    (chat mem req genId (.ok env)).2.get_conversation_history
        (req.session_id.getD genId) =
      takeLast mem.max_messages
        (mem.get_conversation_history (req.session_id.getD genId) ++
          [⟨"user", req.message, env.ts1, []⟩,
           ⟨"assistant", (chat mem req genId (.ok env)).1.response, env.ts2, []⟩]) ∧
    (chat mem req genId (.ok env)).2.analytics_log.length =
      mem.analytics_log.length + 2 * 2 := by
  set sid := req.session_id.getD genId with hsid
  set docs := if req.include_context then env.docs else [] with hdocs
  set bot := if env.llm_result.success then env.llm_result.response
    else LLMEngine.get_fallback_response req.message with hbot
  have hpair : chat mem req genId (.ok env) =
      (⟨true, bot, sid, env.elapsed, docs.length, none⟩,
        ((((mem.add_message sid "user" req.message env.ts1 []).add_message
            sid "assistant" bot env.ts2 []).log_message
            sid "user" req.message env.ts3 docs.length none []).log_message
            sid "assistant" bot env.ts4 docs.length (some env.elapsed_log) [])) := rfl
  have hresp : (chat mem req genId (.ok env)).1.response = bot := by rw [hpair]
  have hcu : (chat mem req genId (.ok env)).1.context_used = docs.length := by rw [hpair]
  refine ⟨?_, ?_, ?_⟩
  · rw [hresp, hcu, hpair]
    simp only [log_message_analytics, add_message_analytics, List.append_assoc]
    rfl
  · rw [hresp, hpair]
    show ((((mem.add_message sid "user" req.message env.ts1 []).add_message
        sid "assistant" bot env.ts2 []).log_message
        sid "user" req.message env.ts3 docs.length none []).log_message
        sid "assistant" bot env.ts4 docs.length (some env.elapsed_log)
        []).get_conversation_history sid = _
    have hlog2 : ((((mem.add_message sid "user" req.message env.ts1 []).add_message
        sid "assistant" bot env.ts2 []).log_message
        sid "user" req.message env.ts3 docs.length none []).log_message
        sid "assistant" bot env.ts4 docs.length (some env.elapsed_log)
        []).get_conversation_history sid =
        ((mem.add_message sid "user" req.message env.ts1 []).add_message
          sid "assistant" bot env.ts2 []).get_conversation_history sid := rfl
    rw [hlog2, get_history_add_self, get_history_add_self, add_message_max]
    unfold dequeAppend
    rw [takeLast_append_takeLast, List.append_assoc]
    rfl
  · rw [hpair]
    simp only [log_message_analytics, add_message_analytics, List.append_assoc,
      List.length_append]
    simp

/-! ### Lemmas about `argsort`, `topIndices` and `buildResults` -/

theorem argsort_perm (sims : List ℚ) :
    List.Perm (argsort sims) (List.range sims.length) :=
  List.perm_insertionSort _ _

theorem argsort_sorted (sims : List ℚ) :
    List.Sorted (idxRel fun i => sims.getD i 0) (argsort sims) :=
  List.sorted_insertionSort _ _

theorem argsort_nodup (sims : List ℚ) : (argsort sims).Nodup :=
  (argsort_perm sims).nodup_iff.mpr (List.nodup_range _)

theorem mem_argsort_lt (sims : List ℚ) {i : ℕ} (h : i ∈ argsort sims) :
    i < sims.length :=
  List.mem_range.mp ((argsort_perm sims).mem_iff.mp h)

theorem topIndices_nodup (sims : List ℚ) (k : ℕ) : (topIndices sims k).Nodup := by
  unfold topIndices
  exact List.nodup_reverse.mpr ((List.drop_sublist _ _).nodup (argsort_nodup sims))

theorem mem_topIndices_lt (sims : List ℚ) (k : ℕ) {i : ℕ}
    (h : i ∈ topIndices sims k) : i < sims.length := by
  unfold topIndices at h
  rw [List.mem_reverse] at h
  exact mem_argsort_lt sims (List.mem_of_mem_drop h)

theorem topIndices_length_le (sims : List ℚ) (k : ℕ) (hk : 1 ≤ k) :
    (topIndices sims k).length ≤ k := by
  unfold topIndices
  have hlen : (argsort sims).length = sims.length :=
    (argsort_perm sims).length_eq.trans (List.length_range _)
  rw [List.length_reverse, List.length_drop, hlen, if_neg (by omega)]
  omega

theorem topIndices_pairwise (sims : List ℚ) (k : ℕ) :
    (topIndices sims k).Pairwise (fun i j => idxRel (fun t => sims.getD t 0) j i) := by
  unfold topIndices
  rw [List.pairwise_reverse]
  exact List.Pairwise.sublist (List.drop_sublist _ _) (argsort_sorted sims)

theorem buildResults_length (docs : List Document) (sims : List ℚ) :
    ∀ (idxs : List ℕ) (r : ℕ), (buildResults docs sims idxs r).length = idxs.length
  | [], _ => rfl
  | idx :: rest, r => by
      simp [buildResults, buildResults_length docs sims rest (r + 1)]

theorem buildResults_map_score (docs : List Document) (sims : List ℚ) :
    ∀ (idxs : List ℕ) (r : ℕ),
      (buildResults docs sims idxs r).map (fun t => t.score) =
        idxs.map (fun i => sims.getD i 0)
  | [], _ => rfl
  | idx :: rest, r => by
      simp [buildResults, buildResults_map_score docs sims rest (r + 1)]

theorem buildResults_map_doc (docs : List Document) (sims : List ℚ) :
    ∀ (idxs : List ℕ) (r : ℕ),
      (buildResults docs sims idxs r).map (fun t => t.document) =
        idxs.map (fun i => docs.getD i defaultDocument)
  | [], _ => rfl
  | idx :: rest, r => by
      simp [buildResults, buildResults_map_doc docs sims rest (r + 1)]

theorem buildResults_map_rank (docs : List Document) (sims : List ℚ) :
    ∀ (idxs : List ℕ) (r : ℕ),
      (buildResults docs sims idxs r).map (fun t => t.rank) =
        List.range' r idxs.length
  | [], _ => rfl
  | idx :: rest, r => by
      simp [buildResults, List.range', buildResults_map_rank docs sims rest (r + 1)]

theorem getD_id_ne (docs : List Document)
    (hids : (docs.map (fun d => d.id)).Nodup) {i j : ℕ}
    (hi : i < docs.length) (hj : j < docs.length) (hij : i ≠ j) :
    (docs.getD i defaultDocument).id ≠ (docs.getD j defaultDocument).id := by
  have hgi : docs.getD i defaultDocument = docs[i] := by
    simp [List.getD_eq_getElem?_getD, List.getElem?_eq_getElem hi]
  have hgj : docs.getD j defaultDocument = docs[j] := by
    simp [List.getD_eq_getElem?_getD, List.getElem?_eq_getElem hj]
  rw [hgi, hgj]
  intro heq
  have hi' : i < (docs.map (fun d => d.id)).length := by simpa using hi
  have hj' : j < (docs.map (fun d => d.id)).length := by simpa using hj
  exact hij ((@List.Nodup.getElem_inj_iff _ _ hids i hi' j hj').mp (by simpa using heq))

/-- Claim C1, counterexample: The tie-break direction in the claim is wrong.
With two stored vectors `[1]` and `[1]` and a query encoding to `[1]`,
cosine similarity scores both documents `1` exactly (the constant oracle
used here realises true cosine similarity on these one-dimensional positive
vectors).  `np.argsort([1, 1])` is `[0, 1]` and the slice `[-2:][::-1]`
reverses it, so the document with the *higher* original index (`faq_2`,
index 1) is ranked first — refuting "when two stored vectors have equal
score the document with the lower original index is ranked first". -/
theorem c1_counterexample :
    (RAGEngine.retrieve_context (fun _ => [1]) (fun _ _ => 1)
        ⟨"all-MiniLM-L6-v2", some [[1], [1]],
          [⟨"faq_1", "faq", "General", "doc one", []⟩,
           ⟨"faq_2", "faq", "General", "doc two", []⟩]⟩ "q" 2).map
        (fun r => (r.document.id, r.score, r.rank)) =
      [("faq_2", 1, 1), ("faq_1", 1, 2)] := by
  rfl

/-- Claim C1, amended: For every index state with a non-empty stored-vector
array (parallel to its documents, whose ids are distinct), every query and
every `k ≥ 1`, `retrieve_context` returns at most `k` results ordered by
non-increasing cosine-similarity score, with no duplicate document ids and
1-based consecutive ranks; and when two stored vectors have equal score the
document with the **higher** original index is ranked first (the amendment:
the ascending stable `argsort` followed by the `[::-1]` reversal puts
equal-scored indices in descending index order, not ascending). -/
theorem c1_search_ranking (enc : String → Vec) (sim : Vec → Vec → ℚ)
    (e : RAGEngine) (q : String) (k : ℕ) (embs : List Vec) (sims : List ℚ)
    (hemb : e.embeddings = some embs) (hne : embs ≠ []) (hk : 1 ≤ k)
    (hlen : embs.length = e.documents.length)
    (hids : (e.documents.map (fun d => d.id)).Nodup)
    (hsims : sims = embs.map (fun v => sim (enc q) v)) :
    (RAGEngine.retrieve_context enc sim e q k).length ≤ k ∧
    ((RAGEngine.retrieve_context enc sim e q k).map (fun r => r.score)).Pairwise
      (fun a b => a ≥ b) ∧
    ((RAGEngine.retrieve_context enc sim e q k).map (fun r => r.document.id)).Nodup ∧
    (RAGEngine.retrieve_context enc sim e q k).map (fun r => r.rank) =
      List.range' 1 (RAGEngine.retrieve_context enc sim e q k).length ∧
    (topIndices sims k).Pairwise
      (fun i j => sims.getD j 0 < sims.getD i 0 ∨
        (sims.getD j 0 = sims.getD i 0 ∧ j < i)) := by
  have hlen0 : ¬ embs.length = 0 := fun h0 => hne (List.length_eq_zero.mp h0)
  have hres : RAGEngine.retrieve_context enc sim e q k =
      buildResults e.documents sims (topIndices sims k) 1 := by
    simp only [RAGEngine.retrieve_context, hemb]
    rw [if_neg hlen0, ← hsims]
  have hsimslen : sims.length = e.documents.length := by
    rw [hsims, List.length_map]
    exact hlen
  refine ⟨?_, ?_, ?_, ?_, ?_⟩
  · rw [hres, buildResults_length]
    exact topIndices_length_le sims k hk
  · rw [hres, buildResults_map_score, List.pairwise_map]
    apply (topIndices_pairwise sims k).imp
    intro a b hab
    rcases hab with h | ⟨h, _⟩
    · exact le_of_lt h
    · exact le_of_eq h
  · rw [hres]
    have h1 : (buildResults e.documents sims (topIndices sims k) 1).map
        (fun r => r.document.id) =
        ((buildResults e.documents sims (topIndices sims k) 1).map
          (fun r => r.document)).map (fun d => d.id) := by
      rw [List.map_map]
      rfl
    rw [h1, buildResults_map_doc, List.map_map]
    apply List.Nodup.map_on ?_ (topIndices_nodup sims k)
    intro x hx y hy heq
    by_contra hxy
    have hxd : x < e.documents.length := hsimslen ▸ mem_topIndices_lt sims k hx
    have hyd : y < e.documents.length := hsimslen ▸ mem_topIndices_lt sims k hy
    exact getD_id_ne e.documents hids hxd hyd hxy heq
  · rw [hres, buildResults_map_rank, buildResults_length]
  · have hnd : (topIndices sims k).Pairwise (fun a b => a ≠ b) :=
      topIndices_nodup sims k
    have hand := (topIndices_pairwise sims k).and hnd
    apply hand.imp
    intro a b hab
    obtain ⟨hrel, hne'⟩ := hab
    rcases hrel with h | ⟨h, hle⟩
    · exact Or.inl h
    · exact Or.inr ⟨h, Nat.lt_of_le_of_ne hle (fun hba => hne' hba.symm)⟩

/-- The witness for `c1_search_ranking`: two stored vectors `[1]` and `[2]`
with scores `1 < 2` under the first-component scoring oracle, `k = 1`. -/
theorem c1_witness :
    (RAGEngine.retrieve_context (fun _ => [1]) (fun _ v => v.getD 0 0)
        ⟨"m", some [[1], [2]],
          [⟨"faq_1", "faq", "General", "a", []⟩,
           ⟨"faq_2", "faq", "General", "b", []⟩]⟩ "q" 1).length ≤ 1 ∧
    ((RAGEngine.retrieve_context (fun _ => [1]) (fun _ v => v.getD 0 0)
        ⟨"m", some [[1], [2]],
          [⟨"faq_1", "faq", "General", "a", []⟩,
           ⟨"faq_2", "faq", "General", "b", []⟩]⟩ "q" 1).map
      (fun r => r.document.id)).Nodup := by
  have h := c1_search_ranking (fun _ => [1]) (fun _ v => v.getD 0 0)
    ⟨"m", some [[1], [2]],
      [⟨"faq_1", "faq", "General", "a", []⟩,
       ⟨"faq_2", "faq", "General", "b", []⟩]⟩ "q" 1 [[1], [2]] [1, 2]
    rfl (by decide) (by decide) (by decide) (by decide) (by decide)
  exact ⟨h.1, h.2.2.1⟩
